import Mathlib

/-!
Verification of the Mellow Labs dashboard persistence layer.

The development shallowly embeds:
* `server.js` (src/unnamed/part_002): the schema registry (`resources`),
  the generic resource store (`upsert` / `list` / `remove` / `clear` built
  from prepared SQL statements), id generation, and the CSV projector; and
* `shared_api.js`: the tiered client facade (`API.init` merge logic,
  `API.list` / `upsert` / `remove` / `clear`, `loadLocalStorage`).

JavaScript values reaching the store are modelled by `JSValue`
(strings, numbers, booleans, null; absence is `Option`).  JS numbers are
modelled as exact rationals plus a NaN marker (`JSNum`): the claims under
study only exercise arithmetic-free coercions, where doubles and
rationals agree.  The SQLite REAL column is modelled as `Option Rat`
because SQLite stores a bound NaN as NULL.  `Number(string)` coercion is
modelled for the decimal fragment (optional sign, digits, optional
fraction); other strings map to NaN, matching JS on every input the
claims touch.  `Math.random().toString(36).slice(2)` and `Date.now()`
are oracle parameters (`randPart`, `t`), and server/localStorage I/O
outcomes are oracle parameters of the facade operations.
-/

namespace MellowDash

/-- JS number: either NaN or an exact value (modelled as a rational). -/
inductive JSNum where
  | nan : JSNum
  | val (q : Rat) : JSNum
deriving DecidableEq, Repr

/-- The fragment of JS values that payload fields range over. -/
inductive JSValue where
  | vstr (s : String) : JSValue
  | vnum (n : JSNum) : JSValue
  | vbool (b : Bool) : JSValue
  | vnull : JSValue
deriving DecidableEq, Repr

/-- JS truthiness for the modelled value fragment. -/
def truthy : JSValue → Bool
  | .vstr s => s ≠ ""
  | .vnum .nan => false
  | .vnum (.val q) => q ≠ 0
  | .vbool b => b
  | .vnull => false

/-- `data.f || d`: the field's value when present and truthy, else `d`. -/
def jsOr (o : Option JSValue) (d : JSValue) : JSValue :=
  match o with
  | some v => if truthy v then v else d
  | none => d

/-- Numeric value of a digit character, if it is one. -/
def digitVal (c : Char) : Option Nat :=
  if c.isDigit then some (c.toNat - '0'.toNat) else none

/-- Value of a digit string (0 for the empty string, as in `Number("")`). -/
def digitsVal (cs : List Char) : Nat :=
  cs.foldl (fun acc c => acc * 10 + (c.toNat - '0'.toNat)) 0

/-- Whitespace trimmed by JS `Number(string)` coercion. -/
def isJsSpace (c : Char) : Bool :=
  c = ' ' || c = '\t' || c = '\n' || c = '\r'

/-- JS `Number(string)` on the decimal fragment: trims whitespace, maps
the empty string to 0, accepts `[+-]? digits* [. digits*]` with at least
one digit, and yields NaN otherwise.  (Exponents, hex and `Infinity`
are outside the modelled fragment; no claim exercises them.) -/
def parseNumber (s : String) : JSNum :=
  let cs := (s.toList.dropWhile isJsSpace).reverse.dropWhile isJsSpace |>.reverse
  if cs.isEmpty then .val 0
  else
    let (sign, body) : Rat × List Char :=
      match cs with
      | '-' :: rest => (-1, rest)
      | '+' :: rest => (1, rest)
      | _ => (1, cs)
    let ip := body.takeWhile Char.isDigit
    let rest := body.drop ip.length
    match rest with
    | [] => if ip.isEmpty then .nan else .val (sign * digitsVal ip)
    | '.' :: fp =>
      if fp.all Char.isDigit && !(ip.isEmpty && fp.isEmpty) then
        .val (sign * ((digitsVal ip : Rat) + (digitsVal fp : Rat) / ((10 : Rat) ^ fp.length)))
      else .nan
    | _ => .nan

/-- JS `Number(value)` coercion on the modelled value fragment. -/
def toNumber : JSValue → JSNum
  | .vnum n => n
  | .vstr s => parseNumber s
  | .vbool true => .val 1
  | .vbool false => .val 0
  | .vnull => .val 0

/-- Decimal rendering of a rational.  JS prints doubles with
shortest-roundtrip decimals; the renderings agree on the integral values
that can occur where this function is used (stringified ids), and no
claim reaches the non-integral case. -/
def ratToString (q : Rat) : String :=
  if q.den = 1 then toString q.num else toString q.num ++ "/" ++ toString q.den

/-- JS `String(value)` coercion on the modelled value fragment. -/
def jsToString : JSValue → String
  | .vstr s => s
  | .vnull => "null"
  | .vbool true => "true"
  | .vbool false => "false"
  | .vnum .nan => "NaN"
  | .vnum (.val q) => ratToString q

/-- Text column written by `toRow`: `data.f || ''`, then stringified by
SQLite TEXT affinity when the kept value is not already a string. -/
def textField (o : Option JSValue) : String :=
  jsToString (jsOr o (.vstr ""))

/-- REAL column content for a JS number: SQLite stores NaN as NULL. -/
def numToStored : JSNum → Option Rat
  | .nan => none
  | .val q => some q

/-- `x || d` on JS numbers already known to be numbers (0 is falsy). -/
def numOr (q d : Rat) : Rat := if q = 0 then d else q

/-- `s || d` on JS strings ("" is falsy). -/
def strOr (s d : String) : String := if s = "" then d else s

/-- `Number(row.f || 0)` when reading a REAL column back (NULL → 0). -/
def optNum : Option Rat → Rat
  | none => 0
  | some q => numOr q 0

/-- Digit character for a value below the base (0-9 then a-z), as used
by JS `Number.prototype.toString(base)`. -/
def baseDigitChar (d : Nat) : Char :=
  if d < 10 then Char.ofNat (48 + d) else Char.ofNat (87 + d)

/-- Positional digits of `n` in base `b`, accumulator style; `fuel`
bounds the recursion and is always sufficient at the call sites. -/
def digitsAux (b : Nat) : Nat → Nat → List Char → List Char
  | 0, _, acc => acc
  | fuel + 1, n, acc =>
    if n < b then baseDigitChar n :: acc
    else digitsAux b fuel (n / b) (baseDigitChar (n % b) :: acc)

/-- `n.toString(36)` for a natural number, lowercase digits. -/
def natToBase36 (n : Nat) : String :=
  String.mk (digitsAux 36 (n + 1) n [])

/-- `n.toString(10)` digits of a natural number. -/
def natDecimal (n : Nat) : List Char :=
  digitsAux 10 (n + 1) n []

/-- `generateId` from server.js (and the identical `uid` from
shared_api.js): `Math.random().toString(36).slice(2)` is the oracle
`randPart`, `Date.now()` the oracle `t`. -/
def generateId (randPart : String) (t : Nat) : String :=
  randPart ++ natToBase36 t

/-- Rounding of `Number.prototype.toFixed`: half away from zero.  (JS
rounds the exact binary double; on the exact rationals of this model
half-away-from-zero is the matching idealization, and no claim depends
on tie behaviour.) -/
def roundHalfAway (x : Rat) : Int :=
  if 0 ≤ x then ⌊x + 1 / 2⌋ else -⌊-x + 1 / 2⌋

/-- `q.toFixed(2)`: sign, integer part, dot, exactly two fraction
digits. -/
def toFixed2 (q : Rat) : String :=
  let m := (roundHalfAway (q * 100)).natAbs
  (if q < 0 then "-" else "") ++ String.mk (natDecimal (m / 100)) ++ "." ++
    String.mk [baseDigitChar (m % 100 / 10), baseDigitChar (m % 10)]

/-- The characters that force CSV quoting, per the regex `[",\n]`. -/
def csvSpecial (c : Char) : Bool :=
  c = '"' || c = ',' || c = '\n'

/-- `value.replace(/"/g, '""')`: double every embedded quote. -/
def doubleQuotes (s : String) : String :=
  String.mk (s.toList.flatMap fun c => if c = '"' then ['"', '"'] else [c])

/-- `sanitizeCSV` from server.js: null/undefined become the empty
string, a field containing a quote, comma or newline is wrapped in
quotes with embedded quotes doubled, anything else passes through. -/
def sanitizeCSV (value : Option String) : String :=
  match value with
  | none => ""
  | some str =>
    if str.toList.any csvSpecial then "\"" ++ doubleQuotes str ++ "\"" else str

/-- One CSV line: fields sanitized and joined with commas. -/
def csvLine (fields : List String) : String :=
  String.intercalate "," (fields.map fun f => sanitizeCSV (some f))

/-! ## The generic resource store (server.js `buildResource` + CRUD)

A table is a list of rows in rowid order.  `F` is the kind's non-id
column set (declared per kind below); every kind's `updatable` list
names exactly its non-id columns, so the `ON CONFLICT(id) DO UPDATE`
clause overwrites all of `F` and refreshes `updated_at`. -/

/-- A stored row: `id` primary key, the kind's other columns, and the
store-assigned timestamps. -/
structure StoredRow (F : Type) where
  id : String
  fields : F
  created_at : String
  updated_at : String
deriving DecidableEq, Repr

/-- A table of rows. -/
abbrev Store (F : Type) : Type := List (StoredRow F)

/-- `INSERT ... ON CONFLICT(id) DO UPDATE SET <all non-id columns> ,
updated_at=CURRENT_TIMESTAMP`: update the row holding `rid` (unique by
primary key) or append a fresh row with both timestamps set to `now`. -/
def upsertRow (now rid : String) (f : F) : Store F → Store F
  | [] => [⟨rid, f, now, now⟩]
  | r :: rs =>
    if r.id = rid then { r with fields := f, updated_at := now } :: rs
    else r :: upsertRow now rid f rs

/-- `SELECT ... WHERE id = ?`. -/
def selectOne (store : Store F) (rid : String) : Option (StoredRow F) :=
  store.find? fun r => r.id == rid

/-- `DELETE FROM t WHERE id = ?`, paired with `changes > 0`. -/
def storeRemove (store : Store F) (rid : String) : Store F × Bool :=
  (store.filter (fun r => !(r.id == rid)), store.any fun r => r.id == rid)

/-- `DELETE FROM t`. -/
def storeClear (_store : Store F) : Store F := []

/-- Codepoint-lexicographic comparison of character lists: the BINARY
collation SQLite applies to the TEXT sort keys (which coincides with
byte order on the ASCII data at hand). -/
def charListLt : List Char → List Char → Bool
  | [], [] => false
  | [], _ :: _ => true
  | _ :: _, [] => false
  | a :: as, b :: bs =>
    if a.toNat < b.toNat then true
    else if b.toNat < a.toNat then false
    else charListLt as bs

/-- Strict BINARY-collation order on strings. -/
def strLtB (s t : String) : Bool := charListLt s.data t.data

/-- Reflexive BINARY-collation order on strings. -/
def strLeB (s t : String) : Bool := strLtB s t || s == t

/-- The `ORDER BY date DESC, updated_at DESC` comparison: `a` may come
before `b` when `b`'s key is at most `a`'s in the lexicographic
(date, updated_at) order. -/
def rowLE (dateOf : F → String) (a b : StoredRow F) : Prop :=
  strLtB (dateOf b.fields) (dateOf a.fields) = true ∨
    (dateOf b.fields = dateOf a.fields ∧ strLeB b.updated_at a.updated_at = true)

instance (dateOf : F → String) : DecidableRel (rowLE dateOf) := fun _ _ =>
  inferInstanceAs (Decidable (_ ∨ _))

/-- `SELECT ... ORDER BY date DESC, updated_at DESC`: the rows sorted by
the descending (date, updated_at) key. -/
def sortRows (dateOf : F → String) (store : Store F) : Store F :=
  List.insertionSort (rowLE dateOf) store

/-! ## The three record kinds (server.js `resources`) -/

/-- Non-id columns of the `incomes` table.  REAL columns are
`Option Rat` (NULL ↔ stored NaN), TEXT columns are `String` (always
written non-null by `toRow`). -/
structure IncomeFields where
  date : String
  source : String
  processor : String
  amount : Option Rat
  fees : Option Rat
  notes : String
deriving DecidableEq, Repr

/-- Non-id columns of the `expenses` table. -/
structure ExpensesFields where
  date : String
  category : String
  seller : String
  items : String
  order_number : String
  total : Option Rat
  notes : String
  source : String
deriving DecidableEq, Repr

/-- Non-id columns of the `payroll` table. -/
structure PayrollFields where
  date : String
  employee : String
  amount : Option Rat
  notes : String
deriving DecidableEq, Repr

/-- Income upsert payload: each field optionally present. -/
structure IncomePayload where
  id : Option JSValue := none
  date : Option JSValue := none
  source : Option JSValue := none
  processor : Option JSValue := none
  amount : Option JSValue := none
  fees : Option JSValue := none
  notes : Option JSValue := none
deriving DecidableEq, Repr

/-- Expenses upsert payload (`orderNumber` and `order_number` are the
two accepted spellings). -/
structure ExpensesPayload where
  id : Option JSValue := none
  date : Option JSValue := none
  category : Option JSValue := none
  seller : Option JSValue := none
  items : Option JSValue := none
  orderNumber : Option JSValue := none
  order_number : Option JSValue := none
  total : Option JSValue := none
  notes : Option JSValue := none
  source : Option JSValue := none
deriving DecidableEq, Repr

/-- Payroll upsert payload. -/
structure PayrollPayload where
  id : Option JSValue := none
  date : Option JSValue := none
  employee : Option JSValue := none
  amount : Option JSValue := none
  notes : Option JSValue := none
deriving DecidableEq, Repr

/-- `resources.income.toRow`: id from the payload or the generated
fresh id, texts defaulted to `''`, numerics through `Number(x || 0)`
(NaN reaching the REAL column becomes NULL). -/
def incomeToRow (freshId : String) (p : IncomePayload) : String × IncomeFields :=
  (jsToString (jsOr p.id (.vstr freshId)),
   { date := textField p.date
     source := textField p.source
     processor := textField p.processor
     amount := numToStored (toNumber (jsOr p.amount (.vnum (.val 0))))
     fees := numToStored (toNumber (jsOr p.fees (.vnum (.val 0))))
     notes := textField p.notes })

/-- `resources.expenses.toRow`. -/
def expensesToRow (freshId : String) (p : ExpensesPayload) : String × ExpensesFields :=
  (jsToString (jsOr p.id (.vstr freshId)),
   { date := textField p.date
     category := textField p.category
     seller := textField p.seller
     items := textField p.items
     order_number := jsToString (jsOr p.orderNumber (jsOr p.order_number (.vstr "")))
     total := numToStored (toNumber (jsOr p.total (.vnum (.val 0))))
     notes := textField p.notes
     source := textField p.source })

/-- `resources.payroll.toRow`. -/
def payrollToRow (freshId : String) (p : PayrollPayload) : String × PayrollFields :=
  (jsToString (jsOr p.id (.vstr freshId)),
   { date := textField p.date
     employee := textField p.employee
     amount := numToStored (toNumber (jsOr p.amount (.vnum (.val 0))))
     notes := textField p.notes })

/-- Client-facing income record produced by `resources.income.map`;
the numeric fields are numbers (rationals), never text or null. -/
structure IncomeRec where
  id : String
  date : String
  source : String
  processor : String
  amount : Rat
  fees : Rat
  notes : String
deriving DecidableEq, Repr

/-- Client-facing expenses record produced by `resources.expenses.map`. -/
structure ExpensesRec where
  id : String
  date : String
  category : String
  seller : String
  items : String
  orderNumber : String
  total : Rat
  notes : String
  source : String
deriving DecidableEq, Repr

/-- Client-facing payroll record produced by `resources.payroll.map`. -/
structure PayrollRec where
  id : String
  date : String
  employee : String
  amount : Rat
  notes : String
deriving DecidableEq, Repr

/-- `resources.income.map`: denormalize a stored row. -/
def incomeMap (r : StoredRow IncomeFields) : IncomeRec :=
  { id := r.id
    date := r.fields.date
    source := strOr r.fields.source ""
    processor := strOr r.fields.processor ""
    amount := optNum r.fields.amount
    fees := optNum r.fields.fees
    notes := strOr r.fields.notes "" }

/-- `resources.expenses.map`. -/
def expensesMap (r : StoredRow ExpensesFields) : ExpensesRec :=
  { id := r.id
    date := r.fields.date
    category := strOr r.fields.category ""
    seller := strOr r.fields.seller ""
    items := strOr r.fields.items ""
    orderNumber := strOr r.fields.order_number ""
    total := optNum r.fields.total
    notes := strOr r.fields.notes ""
    source := strOr r.fields.source "" }

/-- `resources.payroll.map`. -/
def payrollMap (r : StoredRow PayrollFields) : PayrollRec :=
  { id := r.id
    date := r.fields.date
    employee := strOr r.fields.employee ""
    amount := optNum r.fields.amount
    notes := strOr r.fields.notes "" }

/-- server.js `upsert('income', payload)`: normalize, insert-or-update,
then re-read and denormalize the stored record.  `now` models
`CURRENT_TIMESTAMP`, `freshId` the `generateId()` outcome. -/
def upsertIncome (now freshId : String) (p : IncomePayload)
    (store : Store IncomeFields) : Store IncomeFields × Option IncomeRec :=
  let rf := incomeToRow freshId p
  let store' := upsertRow now rf.1 rf.2 store
  (store', (selectOne store' rf.1).map incomeMap)

/-- server.js `upsert('expenses', payload)`. -/
def upsertExpenses (now freshId : String) (p : ExpensesPayload)
    (store : Store ExpensesFields) : Store ExpensesFields × Option ExpensesRec :=
  let rf := expensesToRow freshId p
  let store' := upsertRow now rf.1 rf.2 store
  (store', (selectOne store' rf.1).map expensesMap)

/-- server.js `upsert('payroll', payload)`. -/
def upsertPayroll (now freshId : String) (p : PayrollPayload)
    (store : Store PayrollFields) : Store PayrollFields × Option PayrollRec :=
  let rf := payrollToRow freshId p
  let store' := upsertRow now rf.1 rf.2 store
  (store', (selectOne store' rf.1).map payrollMap)

/-- server.js `list('income')`: all rows ordered by date then
updated_at, both descending, denormalized. -/
def incomeList (store : Store IncomeFields) : List IncomeRec :=
  (sortRows (fun f : IncomeFields => f.date) store).map incomeMap

/-- server.js `list('expenses')`. -/
def expensesList (store : Store ExpensesFields) : List ExpensesRec :=
  (sortRows (fun f : ExpensesFields => f.date) store).map expensesMap

/-- server.js `list('payroll')`. -/
def payrollList (store : Store PayrollFields) : List PayrollRec :=
  (sortRows (fun f : PayrollFields => f.date) store).map payrollMap

/-! ## CSV projection (server.js `csvHeader` / `csvRow` / `buildCsv`) -/

/-- `resources.income.csvHeader`. -/
def incomeCsvHeader : List String :=
  ["Date", "Source", "Processor", "AmountGBP", "FeesGBP", "Notes"]

/-- `resources.expenses.csvHeader`. -/
def expensesCsvHeader : List String :=
  ["Date", "Category", "Seller", "Item(s)", "Order #", "TotalGBP", "Notes", "Source"]

/-- `resources.payroll.csvHeader`. -/
def payrollCsvHeader : List String :=
  ["Date", "Employee", "AmountGBP", "Notes"]

/-- `resources.income.csvRow`: numerics via `Number(x || 0).toFixed(2)`. -/
def incomeCsvRow (rec : IncomeRec) : List String :=
  [strOr rec.date "", strOr rec.source "", strOr rec.processor "",
   toFixed2 (numOr rec.amount 0), toFixed2 (numOr rec.fees 0), strOr rec.notes ""]

/-- `resources.expenses.csvRow`. -/
def expensesCsvRow (rec : ExpensesRec) : List String :=
  [strOr rec.date "", strOr rec.category "", strOr rec.seller "",
   strOr rec.items "", strOr rec.orderNumber "",
   toFixed2 (numOr rec.total 0), strOr rec.notes "", strOr rec.source ""]

/-- `resources.payroll.csvRow`. -/
def payrollCsvRow (rec : PayrollRec) : List String :=
  [strOr rec.date "", strOr rec.employee "",
   toFixed2 (numOr rec.amount 0), strOr rec.notes ""]

/-- server.js `buildCsv`, factored over the already-listed records: a
`lines` array seeded with the joined header, one sanitized line pushed
per record, all joined with newlines. -/
def buildCsvFrom (header : List String) (row : α → List String)
    (records : List α) : String :=
  String.intercalate "\n"
    (records.foldl (fun lines rec => lines ++ [csvLine (row rec)])
      [String.intercalate "," header])

/-- `buildCsv('income')` applied to a record list. -/
def buildCsvIncome (records : List IncomeRec) : String :=
  buildCsvFrom incomeCsvHeader incomeCsvRow records

/-- `buildCsv('expenses')` applied to a record list. -/
def buildCsvExpenses (records : List ExpensesRec) : String :=
  buildCsvFrom expensesCsvHeader expensesCsvRow records

/-- `buildCsv('payroll')` applied to a record list. -/
def buildCsvPayroll (records : List PayrollRec) : String :=
  buildCsvFrom payrollCsvHeader payrollCsvRow records

/-! ## HTTP glue used by the facade's server tier (server.js handler) -/

/-- Status of `DELETE /api/<kind>/<id>`: 200 when a row was removed,
404 otherwise. -/
def deleteStatus (deleted : Bool) : Nat := if deleted then 200 else 404

/-- `Response.ok`: status in the 200-299 range. -/
def statusOk (status : Nat) : Bool := 200 ≤ status && status < 300

/-! ## Tiered client facade (shared_api.js `API`)

Fallback-tier mirror records are modelled with the fields the claims
inspect (`id`, `date`, `amount`); the facade code itself only ever reads
`id`.  Network and localStorage effects are oracle parameters: each
server-tier operation takes the wire outcome as an argument, and the
`saveLocalStorage` write-back is an external effect outside the facade
state the claims observe. -/

/-- A record held in a fallback-tier mirror (client-facing shape); a
missing `id` is the empty string (both are JS-falsy for `!row.id`). -/
structure LRec where
  id : String
  date : String
  amount : Rat
deriving DecidableEq, Repr

/-- The three record kinds. -/
inductive Kind where
  | income
  | expenses
  | payroll
deriving DecidableEq, Repr

/-- The facade's tier: `'server' | 'local'`. -/
inductive Mode where
  | server
  | local
deriving DecidableEq, Repr

/-- The mutable state of the `API` object: availability flag, resolved
base, selected tier, and the per-kind in-memory mirrors. -/
structure Facade where
  available : Bool
  base : String
  mode : Mode
  localIncome : List LRec
  localExpenses : List LRec
  localPayroll : List LRec
deriving DecidableEq, Repr

/-- `this.local[kind]`. -/
def Facade.localOf (st : Facade) : Kind → List LRec
  | .income => st.localIncome
  | .expenses => st.localExpenses
  | .payroll => st.localPayroll

/-- Replace `this.local[kind]`. -/
def Facade.setLocal (st : Facade) (k : Kind) (xs : List LRec) : Facade :=
  match k with
  | .income => { st with localIncome := xs }
  | .expenses => { st with localExpenses := xs }
  | .payroll => { st with localPayroll := xs }

/-- `API.list(kind)`: delegate to the wire in the server tier (the
response, successful or thrown, is the oracle `serverResp`); return a
copy of the mirror in the fallback tier. -/
def apiList (st : Facade) (k : Kind)
    (serverResp : Except String (List LRec)) : Facade × Except String (List LRec) :=
  match st.mode with
  | .server => (st, serverResp)
  | .local => (st, .ok (st.localOf k))

/-- `arr[idx] = row` at the first `findIndex` match, else `arr.push(row)`. -/
def setFirstById : List LRec → LRec → List LRec
  | [], row => [row]
  | x :: xs, row =>
    if x.id = row.id then row :: xs else x :: setFirstById xs row

/-- `API.upsert(kind, rec)`: wire call in the server tier; in the
fallback tier, synthesize an id when absent (`fresh` is the `uid()`
oracle), then replace-or-append in the mirror. -/
def apiUpsert (st : Facade) (k : Kind) (rec : LRec) (fresh : String)
    (serverResp : Except String LRec) : Facade × Except String LRec :=
  match st.mode with
  | .server => (st, serverResp)
  | .local =>
    let row := if rec.id = "" then { rec with id := fresh } else rec
    (st.setLocal k (setFirstById (st.localOf k) row), .ok row)

/-- `API.remove(kind, id)`: in the server tier the result is the wire's
`r.ok`; in the fallback tier, filter the mirror and return `true`. -/
def apiRemove (st : Facade) (k : Kind) (rid : String)
    (serverOk : Bool) : Facade × Bool :=
  match st.mode with
  | .server => (st, serverOk)
  | .local =>
    (st.setLocal k ((st.localOf k).filter fun x => !(x.id == rid)), true)

/-- `API.clear(kind)`. -/
def apiClear (st : Facade) (k : Kind) (serverOk : Bool) : Facade × Bool :=
  match st.mode with
  | .server => (st, serverOk)
  | .local => (st.setLocal k [], true)

/-- The bundled-tier merge from `API.init`: when the local override list
is non-empty, build an insertion-ordered map from the bundled records by
id (`new Map(list.map(x => [x.id, x]))`) and then `set` every override
record into it; otherwise keep the bundled list as fetched. -/
def mergeKind (bundled extras : List LRec) : List LRec :=
  if extras.isEmpty then bundled
  else extras.foldl setFirstById (bundled.foldl setFirstById [])

/-- JSON values, as returned by `JSON.parse`. -/
inductive Json where
  | null : Json
  | bool (b : Bool) : Json
  | num (q : Rat) : Json
  | str (s : String) : Json
  | arr (xs : List Json) : Json
  | obj (fields : List (String × Json)) : Json

/-- What `JSON.parse(raw || '[]')` is applied to: `null` (absent entry)
and `''` are falsy and replaced by `'[]'`. -/
def rawOrEmptyArray (raw : Option String) : String :=
  match raw with
  | none => "[]"
  | some s => if s = "" then "[]" else s

/-- `loadLocalStorage` from shared_api.js. `parse` models the external
`JSON.parse` (`none` = exception, caught and mapped to `[]`); a parse
result that is not an array is also mapped to `[]`. -/
def loadLocalStorage (parse : String → Option Json) (raw : Option String) : List Json :=
  match parse (rawOrEmptyArray raw) with
  | some (Json.arr xs) => xs
  | some _ => []
  | none => []

/-! ## Specification-side helper predicates and functions -/

/-- Whether an optional payload field is present and JS-truthy (the
guard under which `data.id || generateId()` keeps the payload's id). -/
def truthyOpt : Option JSValue → Bool
  | some v => truthy v
  | none => false

/-- Touch only the `updated_at` of the (unique, by primary key) row
holding `rid`: the "identical state except the updatedAt timestamp"
relation used by the idempotence claim. -/
def refreshUpdatedAt (rid now : String) : Store F → Store F
  | [] => []
  | r :: rs =>
    if r.id = rid then { r with updated_at := now } :: rs
    else r :: refreshUpdatedAt rid now rs

/-- The ids present in a table. -/
def storeIds (store : Store F) : List String := store.map (·.id)

/-- The ids present in a mirror list. -/
def idsOf (xs : List LRec) : List String := xs.map (·.id)

/-- First record with the given id. -/
def findById (xs : List LRec) (i : String) : Option LRec :=
  xs.find? fun x => x.id == i

/-- Last record with the given id (the one a JS `Map` keeps as value
after setting every element of the list in order). -/
def lastById : List LRec → String → Option LRec
  | [], _ => none
  | x :: xs, i =>
    match lastById xs i with
    | some r => some r
    | none => if x.id = i then some x else none

/-- Whether a mirror list is ordered by `date` descending. -/
def datesDescend : List LRec → Bool
  | [] => true
  | [_] => true
  | a :: b :: rest => strLeB b.date a.date && datesDescend (b :: rest)

/-- The string ends in a dot followed by exactly two digits, and that
dot is its only one: "rendered with exactly two decimal places". -/
def twoDecimalPlaces (s : String) : Prop :=
  ∃ pre d₁ d₂, s = pre ++ "." ++ String.mk [d₁, d₂] ∧
    d₁.isDigit = true ∧ d₂.isDigit = true ∧ ∀ c ∈ pre.toList, c ≠ '.'

/-- A concrete stand-in for `JSON.parse` that recognises only the
literal `"[]"`, used to instantiate parse-parameterized statements. -/
def emptyArrayParse : String → Option Json :=
  fun s => if s = "[]" then some (Json.arr []) else none

/-- One facade CRUD call, with its oracle outcomes, for stating
session-long properties as folds over call sequences. -/
inductive ApiOp where
  | list (k : Kind) (resp : Except String (List LRec)) : ApiOp
  | upsert (k : Kind) (rec : LRec) (fresh : String)
      (resp : Except String LRec) : ApiOp
  | remove (k : Kind) (rid : String) (ok : Bool) : ApiOp
  | clear (k : Kind) (ok : Bool) : ApiOp

/-- The facade state after one CRUD call. -/
def applyOp (st : Facade) : ApiOp → Facade
  | .list k resp => (apiList st k resp).1
  | .upsert k rec fresh resp => (apiUpsert st k rec fresh resp).1
  | .remove k rid ok => (apiRemove st k rid ok).1
  | .clear k ok => (apiClear st k ok).1

/-! ## Concrete instances used by witnesses and counterexamples -/

/-- An income payload that carries an id. -/
def idPayload : IncomePayload :=
  { id := some (.vstr "a"), date := some (.vstr "2024-01-01"),
    amount := some (.vnum (.val 5)) }

/-- The default-coercion payload: date `"2024-01-01"`, amount the
non-numeric string `"abc"`. -/
def abcPayload : IncomePayload :=
  { date := some (.vstr "2024-01-01"), amount := some (.vstr "abc") }

/-- Mirror record dated 2024-01-01. -/
def recJan : LRec := { id := "j", date := "2024-01-01", amount := 1 }

/-- Mirror record dated 2024-03-01. -/
def recMar : LRec := { id := "m", date := "2024-03-01", amount := 3 }

/-- A fallback-tier facade whose income mirror holds the January record
before the March record (reachable: the local tiers adopt the override
list as stored, and `loadLocalStorage` imposes no order). -/
def outOfOrderFacade : Facade :=
  { available := true, base := "", mode := .local,
    localIncome := [recJan, recMar], localExpenses := [], localPayroll := [] }

/-- A fallback-tier facade holding a single income record with id "a". -/
def singletonFacade : Facade :=
  { available := true, base := "", mode := .local,
    localIncome := [{ id := "a", date := "2024-01-01", amount := 1 }],
    localExpenses := [], localPayroll := [] }

/-- Stored income row dated 2024-03-01. -/
def row0301 : StoredRow IncomeFields :=
  ⟨"m", ⟨"2024-03-01", "", "", some 3, some 0, ""⟩, "c1", "u1"⟩

/-- Stored income row dated 2024-01-01. -/
def row0101 : StoredRow IncomeFields :=
  ⟨"j", ⟨"2024-01-01", "", "", some 1, some 0, ""⟩, "c2", "u2"⟩

/-- Stored income row dated 2024-02-01. -/
def row0201 : StoredRow IncomeFields :=
  ⟨"f", ⟨"2024-02-01", "", "", some 2, some 0, ""⟩, "c3", "u3"⟩

/-- The id `generateId` yields from random part `"ab"` at
`Date.now() = 1700000000000`. -/
def clashId : String := generateId "ab" 1700000000000

/-- A store already holding a record whose id equals `clashId`,
inserted by an earlier upsert whose payload supplied that id. -/
def clashStore : Store IncomeFields :=
  (upsertIncome "t0" "g0"
    { id := some (.vstr clashId), date := some (.vstr "2024-01-01") } []).1

/-!
# Theorems

Everything below is a statement about the definitions above; the
sections are grouped by the behaviour they describe.
-/

/-- One upsert after another with the same id and the same normalized
fields only refreshes the `updated_at` of the affected row. -/
theorem upsertRow_twice (now₁ now₂ rid : String) (f : F) (store : Store F) :
    upsertRow now₂ rid f (upsertRow now₁ rid f store) =
      refreshUpdatedAt rid now₂ (upsertRow now₁ rid f store) := by
  induction store with
  | nil => simp [upsertRow, refreshUpdatedAt]
  | cons r rs ih =>
    by_cases h : r.id = rid
    · simp [upsertRow, refreshUpdatedAt, h]
    · simp [upsertRow, refreshUpdatedAt, h, ih]

/-- With a truthy payload id, `toRow` ignores the generated fresh id
(income). -/
theorem incomeToRow_fresh_irrel (p : IncomePayload) (g₁ g₂ : String)
    (h : truthyOpt p.id = true) : incomeToRow g₁ p = incomeToRow g₂ p := by
  cases hid : p.id with
  | none => rw [hid] at h; exact absurd h (by simp [truthyOpt])
  | some v =>
    rw [hid] at h
    simp only [truthyOpt] at h
    simp [incomeToRow, jsOr, h, hid]

/-- With a truthy payload id, `toRow` ignores the generated fresh id
(expenses). -/
theorem expensesToRow_fresh_irrel (p : ExpensesPayload) (g₁ g₂ : String)
    (h : truthyOpt p.id = true) : expensesToRow g₁ p = expensesToRow g₂ p := by
  cases hid : p.id with
  | none => rw [hid] at h; exact absurd h (by simp [truthyOpt])
  | some v =>
    rw [hid] at h
    simp only [truthyOpt] at h
    simp [expensesToRow, jsOr, h, hid]

/-- With a truthy payload id, `toRow` ignores the generated fresh id
(payroll). -/
theorem payrollToRow_fresh_irrel (p : PayrollPayload) (g₁ g₂ : String)
    (h : truthyOpt p.id = true) : payrollToRow g₁ p = payrollToRow g₂ p := by
  cases hid : p.id with
  | none => rw [hid] at h; exact absurd h (by simp [truthyOpt])
  | some v =>
    rw [hid] at h
    simp only [truthyOpt] at h
    simp [payrollToRow, jsOr, h, hid]

/-- C1: for every record kind, upserting the same full payload (with a
truthy `id`) twice leaves the table in the state a single upsert
produces, except that the affected row's `updated_at` is refreshed —
its `id`, `created_at` and every other field are unchanged. -/
theorem upsert_idempotent_up_to_updatedAt :
    (∀ (p : IncomePayload) (now₁ now₂ g₁ g₂ : String) (store : Store IncomeFields),
      truthyOpt p.id = true →
      (upsertIncome now₂ g₂ p (upsertIncome now₁ g₁ p store).1).1 =
        refreshUpdatedAt (incomeToRow g₂ p).1 now₂ (upsertIncome now₁ g₁ p store).1) ∧
    (∀ (p : ExpensesPayload) (now₁ now₂ g₁ g₂ : String) (store : Store ExpensesFields),
      truthyOpt p.id = true →
      (upsertExpenses now₂ g₂ p (upsertExpenses now₁ g₁ p store).1).1 =
        refreshUpdatedAt (expensesToRow g₂ p).1 now₂ (upsertExpenses now₁ g₁ p store).1) ∧
    (∀ (p : PayrollPayload) (now₁ now₂ g₁ g₂ : String) (store : Store PayrollFields),
      truthyOpt p.id = true →
      (upsertPayroll now₂ g₂ p (upsertPayroll now₁ g₁ p store).1).1 =
        refreshUpdatedAt (payrollToRow g₂ p).1 now₂ (upsertPayroll now₁ g₁ p store).1) := by
  refine ⟨?_, ?_, ?_⟩
  · intro p now₁ now₂ g₁ g₂ store h
    have hg := incomeToRow_fresh_irrel p g₁ g₂ h
    simp only [upsertIncome, hg]
    exact upsertRow_twice now₁ now₂ _ _ store
  · intro p now₁ now₂ g₁ g₂ store h
    have hg := expensesToRow_fresh_irrel p g₁ g₂ h
    simp only [upsertExpenses, hg]
    exact upsertRow_twice now₁ now₂ _ _ store
  · intro p now₁ now₂ g₁ g₂ store h
    have hg := payrollToRow_fresh_irrel p g₁ g₂ h
    simp only [upsertPayroll, hg]
    exact upsertRow_twice now₁ now₂ _ _ store

/-- C1 witness: the idempotence theorem applied to a concrete payload
carrying id "a" on the empty store. -/
theorem upsert_idempotent_up_to_updatedAt_witness :
    truthyOpt idPayload.id = true ∧
    (upsertIncome "t2" "g2" idPayload
        (upsertIncome "t1" "g1" idPayload ([] : Store IncomeFields)).1).1 =
      refreshUpdatedAt (incomeToRow "g2" idPayload).1 "t2"
        (upsertIncome "t1" "g1" idPayload ([] : Store IncomeFields)).1 :=
  ⟨by decide,
   upsert_idempotent_up_to_updatedAt.1 idPayload "t1" "t2" "g1" "g2"
     ([] : Store IncomeFields) (by decide)⟩

/-- On a conflicting upsert, the re-read row carries the incoming
fields, the original `created_at`, and the fresh `updated_at`. -/
theorem upsertRow_found (now rid : String) (f : F) :
    ∀ (store : Store F) (r0 : StoredRow F), selectOne store rid = some r0 →
      selectOne (upsertRow now rid f store) rid = some ⟨rid, f, r0.created_at, now⟩ := by
  intro store
  induction store with
  | nil => intro r0 h; simp [selectOne] at h
  | cons r rs ih =>
    intro r0 h
    by_cases hr : r.id = rid
    · rw [selectOne, List.find?_cons_of_pos _ (by simp [hr])] at h
      injection h with h0
      subst h0
      simp only [upsertRow, if_pos hr]
      rw [selectOne, List.find?_cons_of_pos _ (by simp [hr])]
      simp [hr]
    · rw [selectOne, List.find?_cons_of_neg _ (by simp [hr])] at h
      simp only [upsertRow, if_neg hr]
      rw [selectOne, List.find?_cons_of_neg _ (by simp [hr])]
      exact ih r0 h

/-- Rows whose id is not the upsert target are left in place. -/
theorem mem_upsertRow_of_ne (now rid : String) (f : F) :
    ∀ (store : Store F) (r : StoredRow F), r ∈ store → r.id ≠ rid →
      r ∈ upsertRow now rid f store := by
  intro store
  induction store with
  | nil => intro r h; cases h
  | cons x xs ih =>
    intro r h hne
    rcases List.mem_cons.mp h with h | h
    · subst h
      by_cases hx : r.id = rid
      · exact absurd hx hne
      · simp only [upsertRow, if_neg hx]
        exact List.mem_cons_self r _
    · by_cases hx : x.id = rid
      · simp only [upsertRow, if_pos hx]
        exact List.mem_cons_of_mem _ h
      · simp only [upsertRow, if_neg hx]
        exact List.mem_cons_of_mem _ (ih r h hne)

/-- A non-conflicting upsert appends a fresh row whose `created_at` and
`updated_at` both hold the current time. -/
theorem upsertRow_of_fresh (now rid : String) (f : F) :
    ∀ store : Store F, rid ∉ storeIds store →
      upsertRow now rid f store = store ++ [⟨rid, f, now, now⟩] := by
  intro store
  induction store with
  | nil => intro _; rfl
  | cons r rs ih =>
    intro h
    simp only [storeIds, List.map_cons, List.mem_cons, not_or] at h
    have hr : r.id ≠ rid := fun he => h.1 he.symm
    simp only [upsertRow, if_neg hr, List.cons_append]
    rw [ih (by simpa [storeIds] using h.2)]

/-- C9: at the store, an upsert hitting an existing id overwrites every
non-identity column and refreshes `updated_at` while `id` and
`created_at` keep their first-insert values and all other rows stay;
an upsert with an unseen id appends a row with `created_at` and
`updated_at` both set to the current time. -/
theorem upsert_conflict_frame :
    (∀ (F : Type) (store : Store F) (rid now : String) (f : F) (r0 : StoredRow F),
      selectOne store rid = some r0 →
      selectOne (upsertRow now rid f store) rid = some ⟨rid, f, r0.created_at, now⟩ ∧
      ∀ r ∈ store, r.id ≠ rid → r ∈ upsertRow now rid f store) ∧
    (∀ (F : Type) (store : Store F) (rid now : String) (f : F),
      rid ∉ storeIds store →
      upsertRow now rid f store = store ++ [⟨rid, f, now, now⟩]) := by
  constructor
  · intro F store rid now f r0 h
    exact ⟨upsertRow_found now rid f store r0 h,
           fun r hm hne => mem_upsertRow_of_ne now rid f store r hm hne⟩
  · intro F store rid now f h
    exact upsertRow_of_fresh now rid f store h

/-- C9 witness: both branches of the conflict-clause theorem applied to
concrete income rows. -/
theorem upsert_conflict_frame_witness :
    (selectOne [row0101] "j" = some row0101 ∧
      selectOne (upsertRow "n" "j" row0201.fields [row0101]) "j" =
        some ⟨"j", row0201.fields, row0101.created_at, "n"⟩ ∧
      ∀ r ∈ [row0101], r.id ≠ "j" → r ∈ upsertRow "n" "j" row0201.fields [row0101]) ∧
    ("x" ∉ storeIds [row0101] ∧
      upsertRow "n" "x" row0201.fields [row0101] =
        [row0101] ++ [⟨"x", row0201.fields, "n", "n"⟩]) :=
  ⟨⟨by decide,
    upsert_conflict_frame.1 IncomeFields [row0101] "j" "n" row0201.fields row0101 (by decide)⟩,
   ⟨by decide,
    upsert_conflict_frame.2 IncomeFields [row0101] "x" "n" row0201.fields (by decide)⟩⟩

/-- `Number(row.x || 0)` on a REAL column is the stored number, with 0
for NULL. -/
theorem optNum_eq_getD (o : Option Rat) : optNum o = o.getD 0 := by
  cases o with
  | none => rfl
  | some q =>
    by_cases hq : q = 0
    · simp [optNum, numOr, hq]
    · simp [optNum, numOr, hq]

/-- After any upsert the target id re-reads to a row carrying the
incoming fields and the fresh `updated_at`. -/
theorem selectOne_upsertRow_self (now rid : String) (f : F) :
    ∀ store : Store F, ∃ c,
      selectOne (upsertRow now rid f store) rid = some ⟨rid, f, c, now⟩ := by
  intro store
  induction store with
  | nil =>
    refine ⟨now, ?_⟩
    rw [upsertRow, selectOne, List.find?_cons_of_pos _ (by simp)]
  | cons r rs ih =>
    by_cases hr : r.id = rid
    · refine ⟨r.created_at, ?_⟩
      simp only [upsertRow, if_pos hr]
      rw [selectOne, List.find?_cons_of_pos _ (by simp [hr])]
      simp [hr]
    · obtain ⟨c, hc⟩ := ih
      refine ⟨c, ?_⟩
      simp only [upsertRow, if_neg hr]
      rw [selectOne, List.find?_cons_of_neg _ (by simp [hr])]
      exact hc

/-- The normalized fields of the default-coercion payload: the date is
kept, `amount` is NULL (the stored image of `Number("abc") = NaN`), and
the absent `fees` defaults to the number 0. -/
theorem abcPayload_fields (g : String) :
    (incomeToRow g abcPayload).2 = ⟨"2024-01-01", "", "", none, some 0, ""⟩ := rfl

/-- The id of the default-coercion payload's row is the generated one. -/
theorem abcPayload_id (g : String) : (incomeToRow g abcPayload).1 = g := by
  simp [incomeToRow, abcPayload, jsOr, jsToString]

/-- C2: upserting date 2024-01-01 with the non-numeric amount "abc"
succeeds, and the record it returns — like every later denormalized
read of the stored row — carries the number 0 as `amount` (the stored
column is NULL, the image of NaN, read back as 0); in general a
denormalized numeric field is the stored number with 0 for NULL, a
missing numeric input is stored as 0, and a non-numeric string input
is stored as NULL. -/
theorem coercion_defaults :
    (∀ (now g : String) (store : Store IncomeFields),
      (upsertIncome now g abcPayload store).2 =
        some { id := g, date := "2024-01-01", source := "", processor := "",
               amount := 0, fees := 0, notes := "" } ∧
      ∃ r, selectOne (upsertIncome now g abcPayload store).1 g = some r ∧
        r.fields.amount = none ∧ (incomeMap r).amount = 0) ∧
    (∀ o : Option Rat, optNum o = o.getD 0) ∧
    (∀ (p : IncomePayload) (g : String), p.amount = none →
      (incomeToRow g p).2.amount = some 0) ∧
    (∀ (p : IncomePayload) (g s : String), p.amount = some (.vstr s) →
      parseNumber s = .nan → (incomeToRow g p).2.amount = none) := by
  refine ⟨?_, optNum_eq_getD, ?_, ?_⟩
  · intro now g store
    have hid := abcPayload_id g
    obtain ⟨c, hc⟩ := selectOne_upsertRow_self now g (incomeToRow g abcPayload).2 store
    constructor
    · simp only [upsertIncome, hid]
      rw [hc]
      rw [abcPayload_fields]
      simp [incomeMap, strOr, optNum, numOr]
    · refine ⟨⟨g, (incomeToRow g abcPayload).2, c, now⟩, ?_, ?_, ?_⟩
      · simp only [upsertIncome, hid]
        exact hc
      · rw [abcPayload_fields]
      · rw [abcPayload_fields]; rfl
  · intro p g hp
    simp [incomeToRow, hp, jsOr, toNumber, numToStored]
  · intro p g s hp hs
    have hne : s ≠ "" := by
      intro he
      rw [he] at hs
      exact absurd hs (by decide)
    simp [incomeToRow, hp, jsOr, truthy, hne, toNumber, hs, numToStored]

/-- C2 witness: the missing-input and non-numeric-input branches of the
coercion theorem applied to concrete payloads. -/
theorem coercion_defaults_witness :
    (({} : IncomePayload).amount = none ∧
      (incomeToRow "g" ({} : IncomePayload)).2.amount = some 0) ∧
    (abcPayload.amount = some (.vstr "abc") ∧ parseNumber "abc" = .nan ∧
      (incomeToRow "g" abcPayload).2.amount = none) :=
  ⟨⟨rfl, coercion_defaults.2.2.1 {} "g" rfl⟩,
   ⟨rfl, by decide, coercion_defaults.2.2.2 abcPayload "g" "abc" rfl (by decide)⟩⟩

/-- Transitivity of the BINARY-collation comparison. -/
theorem charListLt_trans : ∀ as bs cs : List Char,
    charListLt as bs = true → charListLt bs cs = true →
      charListLt as cs = true := by
  intro as
  induction as with
  | nil =>
    intro bs cs h1 h2
    cases bs with
    | nil => exact absurd h1 (by simp [charListLt])
    | cons b bs' =>
      cases cs with
      | nil => exact absurd h2 (by simp [charListLt])
      | cons c cs' => simp [charListLt]
  | cons a as' ih =>
    intro bs cs h1 h2
    cases bs with
    | nil => exact absurd h1 (by simp [charListLt])
    | cons b bs' =>
      cases cs with
      | nil => exact absurd h2 (by simp [charListLt])
      | cons c cs' =>
        simp only [charListLt] at h1 h2 ⊢
        by_cases hab : a.toNat < b.toNat
        · by_cases hbc : b.toNat < c.toNat
          · rw [if_pos (Nat.lt_trans hab hbc)]
          · by_cases hcb : c.toNat < b.toNat
            · rw [if_neg hbc, if_pos hcb] at h2
              exact absurd h2 (by simp)
            · rw [if_pos (show a.toNat < c.toNat by omega)]
        · by_cases hba : b.toNat < a.toNat
          · rw [if_neg hab, if_pos hba] at h1
            exact absurd h1 (by simp)
          · by_cases hbc : b.toNat < c.toNat
            · rw [if_pos (show a.toNat < c.toNat by omega)]
            · by_cases hcb : c.toNat < b.toNat
              · rw [if_neg hbc, if_pos hcb] at h2
                exact absurd h2 (by simp)
              · rw [if_neg hab, if_neg hba] at h1
                rw [if_neg hbc, if_neg hcb] at h2
                rw [if_neg (show ¬a.toNat < c.toNat by omega),
                    if_neg (show ¬c.toNat < a.toNat by omega)]
                exact ih bs' cs' h1 h2

/-- Trichotomy of the BINARY-collation comparison. -/
theorem charListLt_trichotomy : ∀ as bs : List Char,
    charListLt as bs = true ∨ charListLt bs as = true ∨ as = bs := by
  intro as
  induction as with
  | nil =>
    intro bs
    cases bs with
    | nil => exact Or.inr (Or.inr rfl)
    | cons b bs' => exact Or.inl (by simp [charListLt])
  | cons a as' ih =>
    intro bs
    cases bs with
    | nil => exact Or.inr (Or.inl (by simp [charListLt]))
    | cons b bs' =>
      by_cases hab : a.toNat < b.toNat
      · exact Or.inl (by simp [charListLt, hab])
      · by_cases hba : b.toNat < a.toNat
        · exact Or.inr (Or.inl (by simp [charListLt, hba]))
        · have h3 : a.toNat = b.toNat := by omega
          have hcc : a = b :=
            Char.eq_of_val_eq (UInt32.toNat.inj (by simpa [Char.toNat] using h3))
          rcases ih bs' with h | h | h
          · refine Or.inl ?_
            simp [charListLt, hab, hba, h]
          · refine Or.inr (Or.inl ?_)
            simp [charListLt, hab, hba, h]
          · exact Or.inr (Or.inr (by rw [hcc, h]))

/-- Transitivity of strict string comparison. -/
theorem strLtB_trans {a b c : String} (h1 : strLtB a b = true)
    (h2 : strLtB b c = true) : strLtB a c = true :=
  charListLt_trans a.data b.data c.data h1 h2

/-- Trichotomy of strict string comparison. -/
theorem strLtB_trichotomy (s t : String) :
    strLtB s t = true ∨ strLtB t s = true ∨ s = t := by
  rcases charListLt_trichotomy s.data t.data with h | h | h
  · exact Or.inl h
  · exact Or.inr (Or.inl h)
  · exact Or.inr (Or.inr (congrArg String.mk h))

/-- Transitivity of reflexive string comparison. -/
theorem strLeB_trans {a b c : String} (h1 : strLeB a b = true)
    (h2 : strLeB b c = true) : strLeB a c = true := by
  simp only [strLeB, Bool.or_eq_true, beq_iff_eq] at h1 h2 ⊢
  rcases h1 with h1 | h1 <;> rcases h2 with h2 | h2
  · exact Or.inl (strLtB_trans h1 h2)
  · exact Or.inl (by rw [← h2]; exact h1)
  · exact Or.inl (by rw [h1]; exact h2)
  · exact Or.inr (h1.trans h2)

instance (dateOf : F → String) : IsTotal (StoredRow F) (rowLE dateOf) := by
  constructor
  intro a b
  rcases strLtB_trichotomy (dateOf a.fields) (dateOf b.fields) with h | h | h
  · exact Or.inr (Or.inl h)
  · exact Or.inl (Or.inl h)
  · rcases strLtB_trichotomy a.updated_at b.updated_at with hu | hu | hu
    · exact Or.inr (Or.inr ⟨h, by simp [strLeB, hu]⟩)
    · exact Or.inl (Or.inr ⟨h.symm, by simp [strLeB, hu]⟩)
    · exact Or.inl (Or.inr ⟨h.symm, by simp [strLeB, hu]⟩)

instance (dateOf : F → String) : IsTrans (StoredRow F) (rowLE dateOf) := by
  constructor
  intro a b c hab hbc
  rcases hab with hab | ⟨hab1, hab2⟩ <;> rcases hbc with hbc | ⟨hbc1, hbc2⟩
  · exact Or.inl (strLtB_trans hbc hab)
  · exact Or.inl (by rw [hbc1]; exact hab)
  · exact Or.inl (by rw [← hab1]; exact hbc)
  · exact Or.inr ⟨hbc1.trans hab1, strLeB_trans hbc2 hab2⟩

/-- C3 (amended): the server store's listing is sorted by `date`
descending then `updated_at` descending and is a permutation of the
table — on the three dates 2024-03-01, 2024-01-01, 2024-02-01 it
returns 03-01, 02-01, 01-01 — but the fallback-tier facade serves the
mirror array exactly as stored, without any sorting. -/
theorem listing_sorted_by_date_then_updatedAt :
    (∀ (F : Type) (dateOf : F → String) (store : Store F),
      List.Sorted (rowLE dateOf) (sortRows dateOf store)) ∧
    (∀ (F : Type) (dateOf : F → String) (store : Store F),
      (sortRows dateOf store).Perm store) ∧
    incomeList [row0301, row0101, row0201] =
      [incomeMap row0301, incomeMap row0201, incomeMap row0101] ∧
    (∀ (st : Facade) (k : Kind) (resp : Except String (List LRec)),
      st.mode = .local → (apiList st k resp).2 = .ok (st.localOf k)) := by
  refine ⟨?_, ?_, ?_, ?_⟩
  · intro F dateOf store
    exact List.sorted_insertionSort _ _
  · intro F dateOf store
    exact List.perm_insertionSort _ _
  · decide
  · intro st k resp h
    simp [apiList, h]

/-- C3 witness: the fallback-tier branch of the listing theorem at a
concrete local facade. -/
theorem listing_sorted_by_date_then_updatedAt_witness :
    singletonFacade.mode = .local ∧
    (apiList singletonFacade .income (.ok [])).2 =
      .ok (singletonFacade.localOf .income) :=
  ⟨rfl, listing_sorted_by_date_then_updatedAt.2.2.2 singletonFacade .income (.ok []) rfl⟩

/-- C3 counterexample: a fallback-tier facade whose mirror holds the
January record before the March record answers `list` with that exact
unsorted order, so listing is not date-descending in every tier. -/
theorem listing_unsorted_in_fallback_tier :
    (apiList outOfOrderFacade .income (Except.ok [])).2 = .ok [recJan, recMar] ∧
    datesDescend [recJan, recMar] = false :=
  ⟨rfl, by decide⟩

/-- Setting a record into the insertion-ordered id map: lookups see the
new record under its id and are otherwise unchanged. -/
theorem findById_setFirst : ∀ (m : List LRec) (r : LRec) (i : String),
    findById (setFirstById m r) i = if r.id = i then some r else findById m i := by
  intro m
  induction m with
  | nil =>
    intro r i
    by_cases h : r.id = i <;> simp [setFirstById, findById, h]
  | cons x xs ih =>
    intro r i
    by_cases hx : x.id = r.id
    · rw [setFirstById, if_pos hx]
      by_cases h : r.id = i
      · rw [if_pos h, findById, List.find?_cons_of_pos _ (by simp [h])]
      · rw [if_neg h, findById, List.find?_cons_of_neg _ (by simp [h]), findById,
            List.find?_cons_of_neg _ (by simp [hx, h])]
    · rw [setFirstById, if_neg hx]
      by_cases hxi : x.id = i
      · have h : r.id ≠ i := fun he => hx (hxi.trans he.symm)
        rw [if_neg h, findById, List.find?_cons_of_pos _ (by simp [hxi]), findById,
            List.find?_cons_of_pos _ (by simp [hxi])]
      · rw [findById, List.find?_cons_of_neg _ (by simp [hxi])]
        by_cases h : r.id = i
        · rw [if_pos h]
          have hr := ih r i
          rw [if_pos h] at hr
          exact hr
        · rw [if_neg h, findById, List.find?_cons_of_neg _ (by simp [hxi])]
          have hr := ih r i
          rw [if_neg h] at hr
          exact hr

/-- Setting a record into the id map leaves the id list unchanged when
the id was present and appends it otherwise. -/
theorem idsOf_setFirst : ∀ (m : List LRec) (r : LRec),
    idsOf (setFirstById m r) =
      if r.id ∈ idsOf m then idsOf m else idsOf m ++ [r.id] := by
  intro m
  induction m with
  | nil => intro r; simp [setFirstById, idsOf]
  | cons x xs ih =>
    intro r
    by_cases hx : x.id = r.id
    · rw [setFirstById, if_pos hx]
      rw [if_pos (by simp [idsOf, hx.symm])]
      simp [idsOf, hx]
    · rw [setFirstById, if_neg hx]
      have hd : idsOf (x :: setFirstById xs r) = x.id :: idsOf (setFirstById xs r) := rfl
      rw [hd, ih r]
      by_cases hm : r.id ∈ idsOf xs
      · rw [if_pos hm, if_pos (by simp [idsOf]; right; simpa [idsOf] using hm)]
        rfl
      · have hx' : r.id ∉ idsOf (x :: xs) := by
          simp only [idsOf, List.map_cons, List.mem_cons, not_or]
          exact ⟨fun he => hx he.symm, by simpa [idsOf] using hm⟩
        rw [if_neg hm, if_neg hx']
        rfl

/-- Setting a record preserves distinctness of the map's ids. -/
theorem nodup_idsOf_setFirst (m : List LRec) (r : LRec)
    (h : (idsOf m).Nodup) : (idsOf (setFirstById m r)).Nodup := by
  rw [idsOf_setFirst]
  by_cases hm : r.id ∈ idsOf m
  · rwa [if_pos hm]
  · rw [if_neg hm]
    rw [List.nodup_append]
    refine ⟨h, List.nodup_singleton _, ?_⟩
    intro a ha hb
    rw [List.mem_singleton] at hb
    exact hm (hb ▸ ha)

/-- Folding a list of records into the id map keeps the ids distinct. -/
theorem nodup_idsOf_foldl_set : ∀ extras m : List LRec, (idsOf m).Nodup →
    (idsOf (extras.foldl setFirstById m)).Nodup := by
  intro extras
  induction extras with
  | nil => intro m h; exact h
  | cons e es ih => intro m h; exact ih _ (nodup_idsOf_setFirst m e h)

/-- Looking up after folding: the last set record with the id wins,
falling back to the original map. -/
theorem findById_foldl_set : ∀ (extras m : List LRec) (i : String),
    findById (extras.foldl setFirstById m) i =
      (match lastById extras i with
       | some r => some r
       | none => findById m i) := by
  intro extras
  induction extras with
  | nil => intro m i; rfl
  | cons e es ih =>
    intro m i
    rw [List.foldl_cons, ih]
    cases hl : lastById es i with
    | some r => simp [lastById, hl]
    | none =>
      simp only [lastById, hl]
      rw [findById_setFirst]
      by_cases h : e.id = i <;> simp [h]

/-- C4: the bundled-tier merged view maps bundled records by id and
overwrites/inserts every record from local override storage, so on the
concrete conflict (bundled amount 5, override amount 9 for id "a") the
view holds exactly one record with id "a" carrying amount 9; in
general every id set from the override list resolves to its (last)
override record, and the merged ids are pairwise distinct. -/
theorem bundled_merge_local_wins :
    mergeKind [⟨"a", "", 5⟩] [⟨"a", "", 9⟩] = [⟨"a", "", 9⟩] ∧
    (∀ (bundled extras : List LRec) (i : String) (r : LRec),
      lastById extras i = some r →
      findById (mergeKind bundled extras) i = some r) ∧
    (∀ bundled extras : List LRec, extras ≠ [] →
      (idsOf (mergeKind bundled extras)).Nodup) := by
  refine ⟨by decide, ?_, ?_⟩
  · intro bundled extras i r h
    have hne : extras ≠ [] := by
      intro he
      rw [he] at h
      exact absurd h (by simp [lastById])
    rw [mergeKind, if_neg (by simpa [List.isEmpty_iff] using hne)]
    rw [findById_foldl_set, h]
  · intro bundled extras hne
    rw [mergeKind, if_neg (by simpa [List.isEmpty_iff] using hne)]
    exact nodup_idsOf_foldl_set extras _
      (nodup_idsOf_foldl_set bundled [] (by simp [idsOf]))

/-- C4 witness: the override record for id "a" wins in the merged view
of the concrete bundled/override pair. -/
theorem bundled_merge_local_wins_witness :
    lastById [({ id := "a", date := "", amount := 9 } : LRec)] "a" =
      some { id := "a", date := "", amount := 9 } ∧
    findById (mergeKind [{ id := "a", date := "", amount := 5 }]
        [{ id := "a", date := "", amount := 9 }]) "a" =
      some { id := "a", date := "", amount := 9 } :=
  ⟨by decide,
   bundled_merge_local_wins.2.1 [{ id := "a", date := "", amount := 5 }]
     [{ id := "a", date := "", amount := 9 }] "a"
     { id := "a", date := "", amount := 9 } (by decide)⟩

/-- Pushing lines one by one is appending their images. -/
theorem foldl_push_eq_append (g : α → β) : ∀ (l : List α) (init : List β),
    l.foldl (fun acc x => acc ++ [g x]) init = init ++ l.map g := by
  intro l
  induction l with
  | nil => intro init; simp
  | cons x xs ih => intro init; simp [ih]

/-- The CSV build loop produces the header line followed by one
sanitized line per record, newline-joined. -/
theorem buildCsvFrom_eq (header : List String) (row : α → List String)
    (records : List α) :
    buildCsvFrom header row records =
      String.intercalate "\n"
        (String.intercalate "," header ::
          records.map fun rec => csvLine (row rec)) := by
  rw [buildCsvFrom, foldl_push_eq_append]
  rfl

/-- Digit characters below 10 satisfy `isDigit`. -/
theorem baseDigitChar_isDigit (d : Nat) (h : d < 10) :
    (baseDigitChar d).isDigit = true := by
  interval_cases d <;> decide

/-- Every character the base-10 digit expansion emits is a digit. -/
theorem digitsAux10_digits : ∀ (fuel n : Nat) (acc : List Char),
    (∀ c ∈ acc, c.isDigit = true) →
      ∀ c ∈ digitsAux 10 fuel n acc, c.isDigit = true := by
  intro fuel
  induction fuel with
  | zero => intro n acc hacc c hc; exact hacc c hc
  | succ fuel ih =>
    intro n acc hacc c hc
    rw [digitsAux] at hc
    by_cases hn : n < 10
    · rw [if_pos hn] at hc
      rcases List.mem_cons.mp hc with h | h
      · rw [h]; exact baseDigitChar_isDigit n hn
      · exact hacc c h
    · rw [if_neg hn] at hc
      refine ih (n / 10) _ ?_ c hc
      intro d hd
      rcases List.mem_cons.mp hd with h | h
      · rw [h]; exact baseDigitChar_isDigit (n % 10) (Nat.mod_lt n (by omega))
      · exact hacc d h

/-- `toFixed(2)` output always ends in a dot and exactly two digits. -/
theorem toFixed2_twoDecimalPlaces (q : Rat) : twoDecimalPlaces (toFixed2 q) := by
  refine ⟨(if q < 0 then "-" else "") ++
      String.mk (natDecimal ((roundHalfAway (q * 100)).natAbs / 100)),
    baseDigitChar ((roundHalfAway (q * 100)).natAbs % 100 / 10),
    baseDigitChar ((roundHalfAway (q * 100)).natAbs % 10), rfl, ?_, ?_, ?_⟩
  · exact baseDigitChar_isDigit _ (by omega)
  · exact baseDigitChar_isDigit _ (by omega)
  · intro c hc
    have hc' : c ∈ (if q < 0 then "-" else "").data ++
        natDecimal ((roundHalfAway (q * 100)).natAbs / 100) := by
      simpa [String.data_append] using hc
    rcases List.mem_append.mp hc' with h | h
    · by_cases hq : q < 0
      · rw [if_pos hq] at h
        rcases List.mem_singleton.mp (by simpa using h) with rfl
        decide
      · rw [if_neg hq] at h
        simp at h
    · have : c.isDigit = true :=
        digitsAux10_digits _ _ [] (by simp) c h
      intro he
      rw [he] at this
      exact absurd this (by decide)

/-- `s || ''` on a string is the string itself. -/
theorem strOr_empty (s : String) : strOr s "" = s := by
  by_cases h : s = "" <;> simp [strOr, h]

/-- `Number(q || 0)` on a number is the number itself. -/
theorem numOr_zero (q : Rat) : numOr q 0 = q := by
  by_cases h : q = 0 <;> simp [numOr, h]

/-- Income CSV row in closed form: texts pass through, numerics are
rendered by `toFixed2`. -/
theorem incomeCsvRow_eq (r : IncomeRec) :
    incomeCsvRow r =
      [r.date, r.source, r.processor, toFixed2 r.amount, toFixed2 r.fees,
       r.notes] := by
  simp [incomeCsvRow, strOr_empty, numOr_zero]

/-- Expenses CSV row in closed form. -/
theorem expensesCsvRow_eq (r : ExpensesRec) :
    expensesCsvRow r =
      [r.date, r.category, r.seller, r.items, r.orderNumber,
       toFixed2 r.total, r.notes, r.source] := by
  simp [expensesCsvRow, strOr_empty, numOr_zero]

/-- Payroll CSV row in closed form. -/
theorem payrollCsvRow_eq (r : PayrollRec) :
    payrollCsvRow r = [r.date, r.employee, toFixed2 r.amount, r.notes] := by
  simp [payrollCsvRow, strOr_empty, numOr_zero]

/-- A field is quoted (with embedded quotes doubled) exactly when it
contains a quote, comma or newline. -/
theorem sanitizeCSV_spec (v : String) :
    ((∃ c ∈ v.toList, csvSpecial c = true) ∧
      sanitizeCSV (some v) = "\"" ++ doubleQuotes v ++ "\"") ∨
    ((∀ c ∈ v.toList, csvSpecial c = false) ∧ sanitizeCSV (some v) = v) := by
  by_cases h : v.toList.any csvSpecial = true
  · left
    refine ⟨by simpa [List.any_eq_true] using h, ?_⟩
    simp only [sanitizeCSV]
    rw [if_pos h]
  · right
    refine ⟨?_, ?_⟩
    · intro c hc
      rw [List.any_eq_true] at h
      push_neg at h
      simpa using h c hc
    · simp only [sanitizeCSV]
      rw [if_neg h]

/-- C5: the CSV projection prepends the kind's header line, joins
sanitized fields with commas and rows with newlines, quotes (doubling
embedded quotes) exactly the fields containing a quote, comma or
newline, renders every numeric field with exactly two decimal places,
and is a deterministic pure function of the record list. -/
theorem csv_projection_spec :
    (∀ (α : Type) (header : List String) (row : α → List String)
        (records : List α),
      buildCsvFrom header row records =
        String.intercalate "\n"
          (String.intercalate "," header ::
            records.map fun rec => csvLine (row rec))) ∧
    (∀ v : String,
      ((∃ c ∈ v.toList, csvSpecial c = true) ∧
        sanitizeCSV (some v) = "\"" ++ doubleQuotes v ++ "\"") ∨
      ((∀ c ∈ v.toList, csvSpecial c = false) ∧ sanitizeCSV (some v) = v)) ∧
    sanitizeCSV (some "say \"hi\", ok") = "\"say \"\"hi\"\", ok\"" ∧
    (∀ q : Rat, twoDecimalPlaces (toFixed2 q)) ∧
    (∀ r : IncomeRec, incomeCsvRow r =
      [r.date, r.source, r.processor, toFixed2 r.amount, toFixed2 r.fees,
       r.notes]) ∧
    (∀ r : ExpensesRec, expensesCsvRow r =
      [r.date, r.category, r.seller, r.items, r.orderNumber,
       toFixed2 r.total, r.notes, r.source]) ∧
    (∀ r : PayrollRec, payrollCsvRow r =
      [r.date, r.employee, toFixed2 r.amount, r.notes]) ∧
    (∀ rs₁ rs₂ : List IncomeRec, rs₁ = rs₂ →
      buildCsvIncome rs₁ = buildCsvIncome rs₂) :=
  ⟨fun _ header row records => buildCsvFrom_eq header row records,
   sanitizeCSV_spec,
   by decide,
   toFixed2_twoDecimalPlaces,
   incomeCsvRow_eq,
   expensesCsvRow_eq,
   payrollCsvRow_eq,
   fun _ _ h => congrArg buildCsvIncome h⟩

/-- C5 witness: determinism applied at a concrete record list. -/
theorem csv_projection_spec_witness :
    ([] : List IncomeRec) = [] ∧ buildCsvIncome [] = buildCsvIncome [] :=
  ⟨rfl, csv_projection_spec.2.2.2.2.2.2.2 [] [] rfl⟩

/-- The digit expansion never returns an empty list when it starts from
a non-empty accumulator. -/
theorem digitsAux_cons_ne_nil (b : Nat) : ∀ (fuel n : Nat) (acc : List Char),
    acc ≠ [] → digitsAux b fuel n acc ≠ [] := by
  intro fuel
  induction fuel with
  | zero => intro n acc h; exact h
  | succ fuel ih =>
    intro n acc h
    rw [digitsAux]
    by_cases hn : n < b
    · rw [if_pos hn]; exact List.cons_ne_nil _ _
    · rw [if_neg hn]; exact ih (n / b) _ (List.cons_ne_nil _ _)

/-- With fuel available the digit expansion emits at least one digit. -/
theorem digitsAux_pos_ne_nil (b fuel n : Nat) (acc : List Char)
    (h : 0 < fuel) : digitsAux b fuel n acc ≠ [] := by
  cases fuel with
  | zero => omega
  | succ fuel =>
    rw [digitsAux]
    by_cases hn : n < b
    · rw [if_pos hn]; exact List.cons_ne_nil _ _
    · rw [if_neg hn]
      exact digitsAux_cons_ne_nil b fuel (n / b) _ (List.cons_ne_nil _ _)

/-- A zero-length string is the empty string. -/
theorem string_eq_empty_of_length (s : String) (h : s.length = 0) : s = "" := by
  cases s with
  | mk data =>
    have hd : data = [] := List.length_eq_zero.mp h
    rw [hd]

/-- `n.toString(36)` is never empty. -/
theorem natToBase36_ne_empty (n : Nat) : natToBase36 n ≠ "" := by
  rw [natToBase36]
  intro h
  exact digitsAux_pos_ne_nil 36 (n + 1) n [] (by omega) (congrArg String.data h)

/-- The generated id is a non-empty string for every random part and
every timestamp: the `Date.now().toString(36)` suffix always has at
least one digit. -/
theorem generateId_ne_empty (randPart : String) (t : Nat) :
    generateId randPart t ≠ "" := by
  rw [generateId]
  intro h
  have hlen : (randPart ++ natToBase36 t).length = 0 := by rw [h]; rfl
  rw [String.length_append] at hlen
  exact natToBase36_ne_empty t
    (string_eq_empty_of_length (natToBase36 t) (by omega))

/-- With a falsy payload id, `toRow` adopts the generated fresh id. -/
theorem incomeToRow_id_of_falsy (p : IncomePayload) (g : String)
    (h : truthyOpt p.id = false) : (incomeToRow g p).1 = g := by
  cases hid : p.id with
  | none => simp [incomeToRow, jsOr, jsToString, hid]
  | some v =>
    rw [hid] at h
    simp only [truthyOpt] at h
    simp [incomeToRow, jsOr, h, hid, jsToString]

/-- Appending a row whose id is absent from the table makes it the one
its id selects. -/
theorem selectOne_append_fresh (rid : String) (row : StoredRow F)
    (hrow : row.id = rid) :
    ∀ store : Store F, rid ∉ storeIds store →
      selectOne (store ++ [row]) rid = some row := by
  intro store
  induction store with
  | nil =>
    intro _
    rw [List.nil_append, selectOne, List.find?_cons_of_pos _ (by simp [hrow])]
  | cons r rs ih =>
    intro h
    simp only [storeIds, List.map_cons, List.mem_cons, not_or] at h
    rw [List.cons_append, selectOne,
        List.find?_cons_of_neg _ (by simp; exact fun he => h.1 he.symm)]
    exact ih (by simpa [storeIds] using h.2)

/-- `this.local[kind]` immediately after replacing it. -/
theorem localOf_setLocal (st : Facade) (k : Kind) (xs : List LRec) :
    (st.setLocal k xs).localOf k = xs := by
  cases k <;> rfl

/-- Setting a record with an unseen id appends it to the mirror. -/
theorem setFirstById_of_fresh : ∀ (m : List LRec) (r : LRec),
    r.id ∉ idsOf m → setFirstById m r = m ++ [r] := by
  intro m
  induction m with
  | nil => intro r _; rfl
  | cons x xs ih =>
    intro r h
    simp only [idsOf, List.map_cons, List.mem_cons, not_or] at h
    rw [setFirstById, if_neg (fun he => h.1 he.symm), List.cons_append,
        ih r (by simpa [idsOf] using h.2)]

/-- C6 (amended): an upsert without a truthy id returns a record whose
id is the generated `randomPart ++ base36(Date.now())`, which is always
a non-empty string; when — and only to the extent that — the generated
value differs from every id already stored, the record is appended as a
fresh row, in the server store and in the fallback-tier mirror alike.
No collision check is performed (see the counterexample). -/
theorem fresh_id_nonempty_distinct_if_no_clash :
    (∀ (randPart : String) (t : Nat), generateId randPart t ≠ "") ∧
    (∀ (p : IncomePayload) (now g : String) (store : Store IncomeFields),
      truthyOpt p.id = false → g ∉ storeIds store →
      (upsertIncome now g p store).1 =
        store ++ [⟨g, (incomeToRow g p).2, now, now⟩] ∧
      (upsertIncome now g p store).2 =
        some (incomeMap ⟨g, (incomeToRow g p).2, now, now⟩)) ∧
    (∀ (st : Facade) (k : Kind) (rec : LRec) (fresh : String)
        (resp : Except String LRec),
      st.mode = .local → rec.id = "" → fresh ∉ idsOf (st.localOf k) →
      (apiUpsert st k rec fresh resp).2 = .ok { rec with id := fresh } ∧
      (apiUpsert st k rec fresh resp).1.localOf k =
        st.localOf k ++ [{ rec with id := fresh }]) := by
  refine ⟨generateId_ne_empty, ?_, ?_⟩
  · intro p now g store hfalsy hfresh
    have hid := incomeToRow_id_of_falsy p g hfalsy
    constructor
    · simp only [upsertIncome, hid]
      exact upsertRow_of_fresh now g _ store hfresh
    · simp only [upsertIncome, hid]
      rw [upsertRow_of_fresh now g _ store hfresh,
          selectOne_append_fresh g _ rfl store hfresh]
      rfl
  · intro st k rec fresh resp hmode hid hfresh
    constructor
    · simp [apiUpsert, hmode, hid]
    · simp only [apiUpsert, hmode, hid, if_pos]
      rw [localOf_setLocal]
      exact setFirstById_of_fresh _ _ (by simpa using hfresh)

/-- C6 witness: both non-collision branches applied at concrete inputs
with a generated id. -/
theorem fresh_id_nonempty_distinct_witness :
    generateId "q" 37 ≠ "" ∧
    (truthyOpt ({} : IncomePayload).id = false ∧
      "q11" ∉ storeIds ([] : Store IncomeFields) ∧
      (upsertIncome "t" "q11" {} ([] : Store IncomeFields)).1 =
        [] ++ [⟨"q11", (incomeToRow "q11" ({} : IncomePayload)).2, "t", "t"⟩]) :=
  ⟨fresh_id_nonempty_distinct_if_no_clash.1 "q" 37,
   by decide,
   by decide,
   (fresh_id_nonempty_distinct_if_no_clash.2.1 {} "t" "q11" [] (by decide)
     (by decide)).1⟩

/-- C6 counterexample: the generated id carries no uniqueness
guarantee.  A record whose id equals `generateId "ab" 1700000000000`
is already stored (any payload may supply that id); an upsert without
an id, at a moment when `generateId` yields the same string, returns a
record whose id equals the already-stored one and creates no new row —
it silently overwrites the existing record instead. -/
theorem fresh_id_collision_counterexample :
    clashId ∈ storeIds clashStore ∧
    ((upsertIncome "t1" clashId ({} : IncomePayload) clashStore).2).map
        (fun r => r.id) = some clashId ∧
    (upsertIncome "t1" clashId ({} : IncomePayload) clashStore).1.length =
      clashStore.length := by
  refine ⟨?_, ?_, ?_⟩ <;> decide

/-- `r.ok` of the delete endpoint's response is the store's removal
flag: 200 when a row was deleted, 404 otherwise. -/
theorem statusOk_deleteStatus (d : Bool) : statusOk (deleteStatus d) = d := by
  cases d <;> decide

/-- C7 (amended): at the store, `remove` reports false exactly when the
id is unknown — without any error — and afterwards no row (and hence no
listed record) carries the id; the facade mirrors the store's flag in
the server tier via the 200/404 status, but in the fallback tier it
always reports true, known id or not, while still deleting any matching
record. -/
theorem remove_semantics :
    (∀ (F : Type) (store : Store F) (rid : String),
      ((storeRemove store rid).2 = false ↔ rid ∉ storeIds store) ∧
      ∀ r ∈ (storeRemove store rid).1, r.id ≠ rid) ∧
    (∀ (store : Store IncomeFields) (rid : String),
      ∀ rec ∈ incomeList (storeRemove store rid).1, rec.id ≠ rid) ∧
    (∀ (st : Facade) (k : Kind) (rid : String) (deleted : Bool),
      st.mode = .server →
      (apiRemove st k rid (statusOk (deleteStatus deleted))).2 = deleted) ∧
    (∀ (st : Facade) (k : Kind) (rid : String) (wireOk : Bool),
      st.mode = .local →
      (apiRemove st k rid wireOk).2 = true ∧
      ∀ r ∈ (apiRemove st k rid wireOk).1.localOf k, r.id ≠ rid) := by
  refine ⟨?_, ?_, ?_, ?_⟩
  · intro F store rid
    constructor
    · show (store.any fun r => r.id == rid) = false ↔ rid ∉ storeIds store
      rw [List.any_eq_false]
      constructor
      · intro h hm
        obtain ⟨r, hr, hid⟩ := List.mem_map.mp hm
        exact h r hr (by simp [hid])
      · intro h r hr hb
        exact h (List.mem_map.mpr ⟨r, hr, by simpa using hb⟩)
    · intro r hr
      have := List.of_mem_filter hr
      simpa using this
  · intro store rid rec hrec
    obtain ⟨row, hrow, hmap⟩ := List.mem_map.mp hrec
    have hmem : row ∈ (storeRemove store rid).1 :=
      (List.mem_insertionSort _).mp hrow
    have hne : row.id ≠ rid := by simpa using List.of_mem_filter hmem
    rw [← hmap]
    exact hne
  · intro st k rid deleted hmode
    simp [apiRemove, hmode, statusOk_deleteStatus]
  · intro st k rid wireOk hmode
    constructor
    · simp [apiRemove, hmode]
    · intro r hr
      simp only [apiRemove, hmode, localOf_setLocal] at hr
      simpa using List.of_mem_filter hr

/-- C7 witness: the fallback-tier branch of the delete theorem applied
at a concrete facade. -/
theorem remove_semantics_witness :
    singletonFacade.mode = .local ∧
    (apiRemove singletonFacade .income "a" false).2 = true ∧
    ∀ r ∈ (apiRemove singletonFacade .income "a" false).1.localOf .income,
      r.id ≠ "a" :=
  ⟨rfl, remove_semantics.2.2.2 singletonFacade .income "a" false rfl⟩

/-- C7 counterexample: in the fallback tier, removing an id that no
stored record carries still reports true, not "not removed". -/
theorem remove_unknown_reports_removed :
    (apiRemove singletonFacade .income "z" false).2 = true ∧
    "z" ∉ idsOf (singletonFacade.localOf .income) := by
  refine ⟨rfl, ?_⟩
  decide

/-- `list` never modifies the facade state in either tier. -/
theorem apiList_state (st : Facade) (k : Kind)
    (resp : Except String (List LRec)) : (apiList st k resp).1 = st := by
  cases hm : st.mode <;> simp [apiList, hm]

/-- Replacing a mirror touches neither the tier nor availability. -/
theorem setLocal_mode (st : Facade) (k : Kind) (xs : List LRec) :
    (st.setLocal k xs).mode = st.mode := by
  cases k <;> rfl

/-- Replacing a mirror leaves the availability flag unchanged. -/
theorem setLocal_available (st : Facade) (k : Kind) (xs : List LRec) :
    (st.setLocal k xs).available = st.available := by
  cases k <;> rfl

/-- A single CRUD call leaves `mode` and `available` unchanged. -/
theorem applyOp_preserves_tier (st : Facade) (op : ApiOp) :
    (applyOp st op).mode = st.mode ∧
    (applyOp st op).available = st.available := by
  cases op with
  | list k resp => rw [applyOp, apiList_state]; exact ⟨rfl, rfl⟩
  | upsert k rec fresh resp =>
    cases hm : st.mode <;>
      simp [applyOp, apiUpsert, hm, setLocal_mode, setLocal_available]
  | remove k rid ok =>
    cases hm : st.mode <;>
      simp [applyOp, apiRemove, hm, setLocal_mode, setLocal_available]
  | clear k ok =>
    cases hm : st.mode <;>
      simp [applyOp, apiClear, hm, setLocal_mode, setLocal_available]

/-- C8: every CRUD call — and hence every finite sequence of them, for
any kinds, payloads and oracle outcomes — leaves the facade's `mode`
and `available` exactly as initialization fixed them, so the tier
selected at init serves the whole session. -/
theorem tier_fixed_for_session :
    (∀ (st : Facade) (k : Kind) (resp : Except String (List LRec))
        (rec : LRec) (fresh : String) (uresp : Except String LRec)
        (rid : String) (rok cok : Bool),
      (apiList st k resp).1.mode = st.mode ∧
      (apiList st k resp).1.available = st.available ∧
      (apiUpsert st k rec fresh uresp).1.mode = st.mode ∧
      (apiUpsert st k rec fresh uresp).1.available = st.available ∧
      (apiRemove st k rid rok).1.mode = st.mode ∧
      (apiRemove st k rid rok).1.available = st.available ∧
      (apiClear st k cok).1.mode = st.mode ∧
      (apiClear st k cok).1.available = st.available) ∧
    (∀ (st : Facade) (ops : List ApiOp),
      (ops.foldl applyOp st).mode = st.mode ∧
      (ops.foldl applyOp st).available = st.available) := by
  constructor
  · intro st k resp rec fresh uresp rid rok cok
    refine ⟨?_, ?_, ?_, ?_, ?_, ?_, ?_, ?_⟩
    · rw [apiList_state]
    · rw [apiList_state]
    · exact (applyOp_preserves_tier st (.upsert k rec fresh uresp)).1
    · exact (applyOp_preserves_tier st (.upsert k rec fresh uresp)).2
    · exact (applyOp_preserves_tier st (.remove k rid rok)).1
    · exact (applyOp_preserves_tier st (.remove k rid rok)).2
    · exact (applyOp_preserves_tier st (.clear k cok)).1
    · exact (applyOp_preserves_tier st (.clear k cok)).2
  · intro st ops
    induction ops generalizing st with
    | nil => exact ⟨rfl, rfl⟩
    | cons op ops ih =>
      rw [List.foldl_cons]
      have hstep := applyOp_preserves_tier st op
      have hrest := ih (applyOp st op)
      exact ⟨hrest.1.trans hstep.1, hrest.2.trans hstep.2⟩

/-- C10: `loadLocalStorage` is total over every content of the
override entry — an absent entry (the null falls back to parsing
`"[]"`), an entry `JSON.parse` rejects (the exception is caught), and
an entry holding non-array JSON all load as the empty array, so
fallback-tier initialization never throws on corrupt local storage.
`parse` abstracts the external `JSON.parse`, constrained only to parse
the literal `"[]"` to the empty array as real JSON does. -/
theorem load_local_storage_total :
    ∀ (parse : String → Option Json) (raw : Option String),
      parse "[]" = some (Json.arr []) →
      loadLocalStorage parse none = [] ∧
      (parse (rawOrEmptyArray raw) = none → loadLocalStorage parse raw = []) ∧
      (∀ j, parse (rawOrEmptyArray raw) = some j →
        (∀ xs, j ≠ Json.arr xs) → loadLocalStorage parse raw = []) := by
  intro parse raw hpe
  refine ⟨?_, ?_, ?_⟩
  · rw [loadLocalStorage, show rawOrEmptyArray none = "[]" from rfl, hpe]
  · intro h
    rw [loadLocalStorage, h]
  · intro j hj hne
    rw [loadLocalStorage, hj]
    cases j with
    | arr xs => exact absurd rfl (hne xs)
    | null => rfl
    | bool b => rfl
    | num q => rfl
    | str s => rfl
    | obj fields => rfl

/-- C10 witness: the theorem applied to a concrete parse function on an
absent entry and on an entry the parser rejects. -/
theorem load_local_storage_total_witness :
    emptyArrayParse "[]" = some (Json.arr []) ∧
    loadLocalStorage emptyArrayParse none = [] ∧
    loadLocalStorage emptyArrayParse (some "oops") = [] :=
  ⟨rfl, (load_local_storage_total emptyArrayParse none rfl).1,
   (load_local_storage_total emptyArrayParse (some "oops") rfl).2.1 rfl⟩

end MellowDash
